import Mathlib

/-!
Verification of the Fim file-integrity monitor against its design spec.

Shallow embedding of the relevant source modules:
  * `src/client/scanner.py`   — scan scheduling (`select_files_for_run`, `scan_files`)
  * `src/client/cli.py`       — the state-advance step of `_cmd_run`
  * `src/server/ingest_buffer.py` — `IngestBuffer.enqueue` / `flush` / cache operations
  * `src/server/main.py`      — the `/ingest` endpoint (auth, change and duplicate detection)
  * `src/server/graph.py`     — provenance-segment construction and the three renderers

Modelling conventions:
  * Python `datetime` instants (the results of `_parse_last_scan`) are abstracted to `Nat`
    through an oracle `parse : String → Option Nat`; the code only compares them, so any
    linearly ordered carrier is faithful.  Filesystem and HTTP-library effects are oracles
    (`isfile`, `digest`, …) passed as explicit arguments.
  * Python's stable `list.sort` / `sorted` is modelled by `List.insertionSort`, which is
    also stable for a total preorder, hence produces the identical list.
  * Python string ordering and splitting are modelled on `List Char` (code-point
    comparisons), matching CPython semantics for the ASCII data this system handles.
  * Machine integers do not overflow anywhere in the modelled code (Python ints are
    unbounded), so `Nat`/`Int` are used directly.
-/

namespace Fim

/-! ### String primitives (Python semantics, kernel-computable) -/

/-- Code-point comparison of characters, as CPython compares characters. -/
def charLt (a b : Char) : Bool := a.toNat < b.toNat

/-- Lexicographic strict order on character lists, as CPython compares strings. -/
def charsLt : List Char → List Char → Bool
  | [], [] => false
  | [], _ :: _ => true
  | _ :: _, [] => false
  | a :: as, b :: bs =>
      if a.toNat < b.toNat then true
      else if a.toNat = b.toNat then charsLt as bs
      else false

/-- Python string strict order `a < b`. -/
def strLt (a b : String) : Bool := charsLt a.toList b.toList

/-- Python string order `a <= b`. -/
def strLe (a b : String) : Bool := strLt a b || a == b

/-- Split a character list on a separator character; Python `str.split(sep)` semantics
(an empty input yields one empty field). -/
def splitChar (sep : Char) : List Char → List (List Char)
  | [] => [[]]
  | c :: rest =>
      match splitChar sep rest with
      | [] => [[c]]
      | g :: gs => if c == sep then [] :: g :: gs else (c :: g) :: gs

/-- Python `urn.split(":")` as a list of strings. -/
def splitColon (s : String) : List String :=
  (splitChar ':' s.toList).map (fun cs => String.mk cs)

/-- Python `":".join(parts)`. -/
def joinColon : List String → String
  | [] => ""
  | [s] => s
  | s :: rest => s ++ ":" ++ joinColon rest

/-! ### Scanner data model (`src/client/scanner.py`) -/

/-- Row yielded by the enumerator: `FileEntry` from `src/client/enumerator.py`
(`path`, `size_bytes`).  The enumerator itself is an external collaborator per the
spec, so entry lists are inputs here. -/
structure FileEntry where
  path : String
  size_bytes : Nat
deriving DecidableEq, Repr

/-- Record produced by `scan_files` (`ScanRecord` in `src/client/scanner.py`). -/
structure ScanRecord where
  file_path : String
  file_name : String
  extension : String
  size_bytes : Nat
  sha256 : String
  scan_ts : String
deriving DecidableEq, Repr

/-- Embedding of `_is_sha256_hex`: length 64 and every character in
`"0123456789abcdef"`. -/
def is_sha256_hex (s : String) : Bool :=
  s.toList.length == 64 &&
    s.toList.all (fun ch => ("0123456789abcdef".toList).contains ch)

/-- Sort key comparison used by `select_files_for_run`: Python sorts the triples
`(parsed_ts, path, entry)` with key `(item[0], item[1])`, i.e. lexicographically by
(timestamp, path). -/
def scanKeyLe (a b : Nat × String × FileEntry) : Prop :=
  a.1 < b.1 ∨ (a.1 = b.1 ∧ strLe a.2.1 b.2.1 = true)

instance : DecidableRel scanKeyLe := fun a b => by
  unfold scanKeyLe; infer_instance

/-- Characters with equal code points are equal. -/
theorem char_eq_of_toNat_eq {a b : Char} (h : a.toNat = b.toNat) : a = b :=
  Char.ext (UInt32.toNat.inj h)

/-- Transitivity of the code-point lexicographic order. -/
theorem charsLt_trans : ∀ x y z : List Char,
    charsLt x y = true → charsLt y z = true → charsLt x z = true := by
  intro x
  induction x with
  | nil =>
    intro y z h1 h2
    cases y with
    | nil => simp [charsLt] at h1
    | cons b bs =>
      cases z with
      | nil => simp [charsLt] at h2
      | cons c cs => simp [charsLt]
  | cons a as ih =>
    intro y z h1 h2
    cases y with
    | nil => simp [charsLt] at h1
    | cons b bs =>
      cases z with
      | nil => simp [charsLt] at h2
      | cons c cs =>
        simp only [charsLt] at h1 h2 ⊢
        by_cases hab : a.toNat < b.toNat <;> by_cases hbc : b.toNat < c.toNat <;>
          by_cases habe : a.toNat = b.toNat <;> by_cases hbce : b.toNat = c.toNat <;>
          simp_all <;> try omega
        have hac : ¬ a.toNat < c.toNat := by omega
        have hace : a.toNat = c.toNat := by omega
        simp [hac, hace, ih bs cs h1 h2]

/-- Connexity: two lists none of which is lexicographically smaller are equal. -/
theorem charsLt_conn : ∀ x y : List Char,
    charsLt x y = false → charsLt y x = false → x = y := by
  intro x
  induction x with
  | nil =>
    intro y
    cases y <;> simp [charsLt]
  | cons a as ih =>
    intro y
    cases y with
    | nil => simp [charsLt]
    | cons b bs =>
      simp only [charsLt]
      intro h1 h2
      by_cases hab : a.toNat < b.toNat
      · simp [hab] at h1
      · by_cases hba : b.toNat < a.toNat
        · have : a.toNat ≠ b.toNat := by omega
          simp [hba] at h2
        · have heq : a.toNat = b.toNat := by omega
          simp [hab, heq] at h1
          simp [hba, heq.symm] at h2
          have hab' : a = b := char_eq_of_toNat_eq heq
          rw [hab', ih bs h1 h2]

/-- Strings neither of which is smaller are equal. -/
theorem str_eq_of_not_lt {a b : String} (h1 : strLt a b = false)
    (h2 : strLt b a = false) : a = b := by
  have := charsLt_conn a.toList b.toList h1 h2
  cases a; cases b; simp_all [String.toList]

instance : IsTotal (Nat × String × FileEntry) scanKeyLe := by
  constructor
  intro a b
  unfold scanKeyLe
  rcases Nat.lt_trichotomy a.1 b.1 with h | h | h
  · exact Or.inl (Or.inl h)
  · by_cases hc : strLt a.2.1 b.2.1 = true
    · exact Or.inl (Or.inr ⟨h, by simp [strLe, hc]⟩)
    · by_cases hd : strLt b.2.1 a.2.1 = true
      · exact Or.inr (Or.inr ⟨h.symm, by simp [strLe, hd]⟩)
      · have heq := str_eq_of_not_lt (by simpa using hc) (by simpa using hd)
        exact Or.inl (Or.inr ⟨h, by simp [strLe, heq]⟩)
  · exact Or.inr (Or.inl h)

/-- Transitivity of the Python string order `strLe`. -/
theorem strLe_trans {a b c : String} (h1 : strLe a b = true) (h2 : strLe b c = true) :
    strLe a c = true := by
  unfold strLe at h1 h2 ⊢
  simp only [Bool.or_eq_true, beq_iff_eq] at h1 h2 ⊢
  rcases h1 with hlt1 | heq1
  · rcases h2 with hlt2 | heq2
    · exact Or.inl (charsLt_trans _ _ _ hlt1 hlt2)
    · exact Or.inl (heq2 ▸ hlt1)
  · exact heq1 ▸ h2

instance : IsTrans (Nat × String × FileEntry) scanKeyLe := by
  constructor
  intro a b c hab hbc
  rcases hab with h1 | ⟨he1, hs1⟩
  · rcases hbc with h2 | ⟨he2, _⟩
    · exact Or.inl (Nat.lt_trans h1 h2)
    · exact Or.inl (he2 ▸ h1)
  · rcases hbc with h2 | ⟨he2, hs2⟩
    · exact Or.inl (he1 ▸ h2)
    · exact Or.inr ⟨he1.trans he2, strLe_trans hs1 hs2⟩

/-- Embedding of `select_files_for_run` (`src/client/scanner.py:68-82`).

The loop partitions `entries` in order into `unscanned` (paths whose state value has no
parseable timestamp) and `scanned` triples `(parsed, path, entry)`.  If any unscanned
entry exists the unscanned list is returned as-is; otherwise the scanned triples are
stably sorted by `(parsed, path)` and the entries extracted.

`parse` is the oracle for `_parse_last_scan` and `stateFiles` models
`state.files.get(path, "")`. -/
def select_files_for_run (parse : String → Option Nat) (stateFiles : String → String)
    (entries : List FileEntry) : List FileEntry :=
  let unscanned := entries.filter (fun e => (parse (stateFiles e.path)).isNone)
  let scanned := entries.filterMap
    (fun e => (parse (stateFiles e.path)).map (fun t => (t, e.path, e)))
  if unscanned.isEmpty then
    (scanned.insertionSort scanKeyLe).map (fun x => x.2.2)
  else
    unscanned

/-- Members of the `scanned` triple list carry their own parse result and path. -/
theorem mem_scanned_facts (parse : String → Option Nat) (stateFiles : String → String)
    (entries : List FileEntry) (x : Nat × String × FileEntry)
    (hx : x ∈ entries.filterMap
      (fun e => (parse (stateFiles e.path)).map (fun t => (t, e.path, e)))) :
    parse (stateFiles x.2.2.path) = some x.1 ∧ x.2.1 = x.2.2.path := by
  rcases List.mem_filterMap.mp hx with ⟨e, _, he⟩
  cases hp : parse (stateFiles e.path) with
  | none => rw [hp] at he; simp at he
  | some t =>
    rw [hp] at he
    have he2 : ((t, e.path, e) : Nat × String × FileEntry) = x := Option.some.inj he
    subst he2
    exact ⟨hp, rfl⟩

/-- Extracting the entry component of the `scanned` triples recovers the entry list
when every entry parses. -/
theorem scanned_map_entry (parse : String → Option Nat) (stateFiles : String → String) :
    ∀ entries : List FileEntry, (∀ e ∈ entries, (parse (stateFiles e.path)).isSome) →
    ((entries.filterMap
        (fun e => (parse (stateFiles e.path)).map (fun t => (t, e.path, e)))).map
      (fun x => x.2.2)) = entries := by
  intro entries
  induction entries with
  | nil => intro _; rfl
  | cons e l ih =>
    intro h
    have he : (parse (stateFiles e.path)).isSome := h e (List.mem_cons_self e l)
    cases hp : parse (stateFiles e.path) with
    | none => rw [hp] at he; simp at he
    | some t =>
      simp only [List.filterMap_cons, hp, Option.map_some, List.map_cons]
      exact congrArg (e :: ·) (ih (fun x hx => h x (List.mem_cons_of_mem e hx)))

/-- C1: `select_files_for_run` returns exactly the unscanned entries, in enumeration
order, whenever at least one enumerated path has no parseable last-scan timestamp;
when every path parses, it returns all entries, sorted ascending by
`(last_scan_timestamp, path)` with path as the tie-break
(`src/client/scanner.py:68-82`). -/
theorem select_files_for_run_spec (parse : String → Option Nat)
    (stateFiles : String → String) (entries : List FileEntry) :
    ((∃ e ∈ entries, parse (stateFiles e.path) = none) →
      select_files_for_run parse stateFiles entries =
        entries.filter (fun e => (parse (stateFiles e.path)).isNone))
    ∧
    ((∀ e ∈ entries, (parse (stateFiles e.path)).isSome) →
      (select_files_for_run parse stateFiles entries).Perm entries ∧
      (select_files_for_run parse stateFiles entries).Pairwise
        (fun a b => ∀ ta tb, parse (stateFiles a.path) = some ta →
          parse (stateFiles b.path) = some tb →
          ta < tb ∨ (ta = tb ∧ strLe a.path b.path = true))) := by
  constructor
  · intro ⟨e, hmem, hnone⟩
    have hfe : e ∈ entries.filter (fun e => (parse (stateFiles e.path)).isNone) :=
      List.mem_filter.mpr ⟨hmem, by simp [hnone]⟩
    have hne : (entries.filter (fun e => (parse (stateFiles e.path)).isNone)).isEmpty = false := by
      cases hf : entries.filter (fun e => (parse (stateFiles e.path)).isNone) with
      | nil => rw [hf] at hfe; simp at hfe
      | cons a l => rfl
    unfold select_files_for_run
    simp only [hne, Bool.false_eq_true, if_false]
  · intro hall
    have hfe : (entries.filter (fun e => (parse (stateFiles e.path)).isNone)) = [] := by
      rw [List.filter_eq_nil_iff]
      intro e he
      have h := hall e he
      cases hp : parse (stateFiles e.path) <;> simp_all
    have hsel : select_files_for_run parse stateFiles entries =
        ((entries.filterMap
            (fun e => (parse (stateFiles e.path)).map (fun t => (t, e.path, e)))).insertionSort
          scanKeyLe).map (fun x => x.2.2) := by
      unfold select_files_for_run
      simp only [hfe, List.isEmpty_nil, if_true]
    constructor
    · rw [hsel]
      have h1 : (((entries.filterMap
            (fun e => (parse (stateFiles e.path)).map (fun t => (t, e.path, e)))).insertionSort
            scanKeyLe).map (fun x => x.2.2)).Perm
          ((entries.filterMap
            (fun e => (parse (stateFiles e.path)).map (fun t => (t, e.path, e)))).map
              (fun x => x.2.2)) :=
        (List.perm_insertionSort scanKeyLe _).map _
      refine h1.trans ?_
      rw [scanned_map_entry parse stateFiles entries hall]
    · rw [hsel]
      rw [List.pairwise_map]
      have hsorted := List.sorted_insertionSort scanKeyLe
        (entries.filterMap
          (fun e => (parse (stateFiles e.path)).map (fun t => (t, e.path, e))))
      refine List.Pairwise.imp_of_mem ?_ hsorted
      intro x y hxm hym hxy
      have hxs : x ∈ entries.filterMap
          (fun e => (parse (stateFiles e.path)).map (fun t => (t, e.path, e))) :=
        (List.perm_insertionSort scanKeyLe _).mem_iff.mp hxm
      have hys : y ∈ entries.filterMap
          (fun e => (parse (stateFiles e.path)).map (fun t => (t, e.path, e))) :=
        (List.perm_insertionSort scanKeyLe _).mem_iff.mp hym
      obtain ⟨hxp, hxpath⟩ := mem_scanned_facts parse stateFiles entries x hxs
      obtain ⟨hyp, hypath⟩ := mem_scanned_facts parse stateFiles entries y hys
      intro ta tb hta htb
      rw [hxp] at hta
      rw [hyp] at htb
      cases hta; cases htb
      rcases hxy with h | ⟨h1, h2⟩
      · exact Or.inl h
      · exact Or.inr ⟨h1, hxpath ▸ hypath ▸ h2⟩

/-- Concrete inputs for the C1 witness. -/
def w1parse : String → Option Nat := fun s =>
  if s = "t5" then some 5 else if s = "t3" then some 3 else none

/-- Concrete state for the C1 witness: `/a` scanned at 5, `/c` scanned at 3, `/b` never. -/
def w1state : String → String := fun p =>
  if p = "/a" then "t5" else if p = "/c" then "t3" else ""

/-- Concrete state for the C1 witness second branch: all three paths scanned. -/
def w1stateAll : String → String := fun p =>
  if p = "/a" then "t5" else if p = "/c" then "t3" else "t3"

/-- Concrete entries for the C1 witness. -/
def w1entries : List FileEntry := [⟨"/a", 1⟩, ⟨"/b", 2⟩, ⟨"/c", 3⟩]

theorem select_files_for_run_spec_witness :
    select_files_for_run w1parse w1state w1entries = [⟨"/b", 2⟩] ∧
    (select_files_for_run w1parse w1stateAll w1entries).Perm w1entries := by
  constructor
  · have h := (select_files_for_run_spec w1parse w1state w1entries).1
      ⟨⟨"/b", 2⟩, by decide, by decide⟩
    rw [h]; decide
  · exact ((select_files_for_run_spec w1parse w1stateAll w1entries).2 (by decide)).1

/-! ### `scan_files` (`src/client/scanner.py:85-136`) -/

/-- Filesystem and path-library oracles used by `scan_files`.  `isfile` returning
`false` also covers the `OSError` branch of the `os.path.isfile` call; `digest`
returning `none` models `sha256_file` raising `OSError` (file vanished/unreadable). -/
structure ScanFs where
  skip : List String
  isfile : String → Bool
  digest : String → Option String
  pathName : String → String
  pathExt : String → String

/-- Record constructed in the body of the `scan_files` loop. -/
def mkScanRecord (fs : ScanFs) (nowTs : String) (e : FileEntry) (d : String) : ScanRecord :=
  { file_path := e.path
    file_name := fs.pathName e.path
    extension := fs.pathExt (fs.pathName e.path)
    size_bytes := e.size_bytes
    sha256 := d
    scan_ts := nowTs }

/-- Break condition at the top of the loop:
`quota_bytes is not None and scanned_count > 0 and scanned_bytes >= quota_bytes`. -/
def quotaBreak (quotaBytes : Option Int) (scannedBytes : Nat) (scannedCount : Nat) : Bool :=
  match quotaBytes with
  | none => false
  | some qb => decide (0 < scannedCount) && decide ((scannedBytes : Int) ≥ qb)

/-- Embedding of the `for entry in files:` loop of `scan_files`, with the two
accumulators `scanned_bytes` and `scanned_count`; returns the records produced from
this point on together with the final byte count. -/
def scanLoop (fs : ScanFs) (nowTs : String) (quotaBytes : Option Int) :
    List FileEntry → Nat → Nat → List ScanRecord × Nat
  | [], scannedBytes, _ => ([], scannedBytes)
  | e :: rest, scannedBytes, scannedCount =>
    if quotaBreak quotaBytes scannedBytes scannedCount then ([], scannedBytes)
    else if fs.skip.contains e.path then scanLoop fs nowTs quotaBytes rest scannedBytes scannedCount
    else if ¬ fs.isfile e.path then scanLoop fs nowTs quotaBytes rest scannedBytes scannedCount
    else
      match fs.digest e.path with
      | none => scanLoop fs nowTs quotaBytes rest scannedBytes scannedCount
      | some d =>
        if ¬ is_sha256_hex d then scanLoop fs nowTs quotaBytes rest scannedBytes scannedCount
        else
          let r := scanLoop fs nowTs quotaBytes rest (scannedBytes + e.size_bytes)
            (scannedCount + 1)
          (mkScanRecord fs nowTs e d :: r.1, r.2)

/-- Embedding of `scan_files` (`src/client/scanner.py:85-136`). -/
def scan_files (fs : ScanFs) (nowTs : String) (quota_gb : Option Int)
    (parse : String → Option Nat) (stateFiles : String → String)
    (entries : List FileEntry) : List ScanRecord × Nat :=
  let files := select_files_for_run parse stateFiles entries
  let quotaBytes := quota_gb.map (fun g => g * (1024 ^ 3 : Int))
  scanLoop fs nowTs quotaBytes files 0 0

/-- Digest of an entry when it passes all four eligibility checks of the loop body
(not skipped, is a file, digest computed, digest well-formed); `none` otherwise. -/
def eligibleDigest (fs : ScanFs) (e : FileEntry) : Option String :=
  if fs.skip.contains e.path then none
  else if ¬ fs.isfile e.path then none
  else
    match fs.digest e.path with
    | none => none
    | some d => if ¬ is_sha256_hex d then none else some d

/-- Eligible entries of a candidate list, paired with their digests. -/
def eligiblePairs (fs : ScanFs) (l : List FileEntry) : List (FileEntry × String) :=
  l.filterMap (fun e => (eligibleDigest fs e).map (fun d => (e, d)))

/-- Specification-side transcription of the quota rule of spec §4.1: walk the ordered
eligible files; before starting a new file, stop if accumulated bytes already meet or
exceed the quota, but always take at least one file. -/
def quotaWalk (q : Int) : List (FileEntry × String) → Nat → Nat → List (FileEntry × String)
  | [], _, _ => []
  | p :: rest, bytes, count =>
    if 0 < count ∧ (bytes : Int) ≥ q then []
    else p :: quotaWalk q rest (bytes + p.1.size_bytes) (count + 1)

/-- With the quota condition already met, the walk takes nothing. -/
theorem quotaWalk_nil_of_break (q : Int) (l : List (FileEntry × String)) (bytes count : Nat)
    (h : 0 < count ∧ (bytes : Int) ≥ q) : quotaWalk q l bytes count = [] := by
  cases l with
  | nil => rfl
  | cons p rest => simp [quotaWalk, h]

/-- Unbounded case of the loop: every eligible file produces a record. -/
theorem scanLoop_none (fs : ScanFs) (nowTs : String) :
    ∀ (l : List FileEntry) (bytes count : Nat),
    (scanLoop fs nowTs none l bytes count).1 =
      (eligiblePairs fs l).map (fun p => mkScanRecord fs nowTs p.1 p.2) := by
  intro l
  induction l with
  | nil => intro bytes count; rfl
  | cons e rest ih =>
    intro bytes count
    have hqb : quotaBreak none bytes count = false := rfl
    by_cases h1 : e.path ∈ fs.skip
    · simp [scanLoop, hqb, h1, eligiblePairs, List.filterMap_cons, eligibleDigest, ih]
    · by_cases h2 : fs.isfile e.path = true
      · cases hd : fs.digest e.path with
        | none => simp [scanLoop, hqb, h1, h2, hd, eligiblePairs, List.filterMap_cons,
            eligibleDigest, ih]
        | some d =>
          by_cases h3 : is_sha256_hex d = true
          · simp [scanLoop, hqb, h1, h2, hd, h3, eligiblePairs, List.filterMap_cons,
              eligibleDigest, ih]
          · simp [scanLoop, hqb, h1, h2, hd, h3, eligiblePairs, List.filterMap_cons,
              eligibleDigest, ih]
      · simp [scanLoop, hqb, h1, h2, eligiblePairs, List.filterMap_cons, eligibleDigest, ih]

/-- Bounded case of the loop: the records are exactly the quota-walk of the eligible
files, with the loop's accumulators. -/
theorem scanLoop_some (fs : ScanFs) (nowTs : String) (q : Int) :
    ∀ (l : List FileEntry) (bytes count : Nat),
    (scanLoop fs nowTs (some q) l bytes count).1 =
      (quotaWalk q (eligiblePairs fs l) bytes count).map
        (fun p => mkScanRecord fs nowTs p.1 p.2) := by
  intro l
  induction l with
  | nil => intro bytes count; rfl
  | cons e rest ih =>
    intro bytes count
    by_cases hq : (0 < count ∧ (bytes : Int) ≥ q)
    · have hqb : quotaBreak (some q) bytes count = true := by
        simp [quotaBreak, hq.1, hq.2]
      simp [scanLoop, hqb, quotaWalk_nil_of_break q _ bytes count hq]
    · have hqb : quotaBreak (some q) bytes count = false := by
        simp only [quotaBreak]
        rcases Decidable.not_and_iff_or_not.mp hq with h | h <;> simp [h]
      by_cases h1 : e.path ∈ fs.skip
      · simp [scanLoop, hqb, h1, eligiblePairs, List.filterMap_cons, eligibleDigest, ih]
      · by_cases h2 : fs.isfile e.path = true
        · cases hd : fs.digest e.path with
          | none => simp [scanLoop, hqb, h1, h2, hd, eligiblePairs, List.filterMap_cons,
              eligibleDigest, ih]
          | some d =>
            by_cases h3 : is_sha256_hex d = true
            · simp [scanLoop, hqb, h1, h2, hd, h3, eligiblePairs, List.filterMap_cons,
                eligibleDigest, quotaWalk, hq, ih]
            · simp [scanLoop, hqb, h1, h2, hd, h3, eligiblePairs, List.filterMap_cons,
                eligibleDigest, ih]
        · simp [scanLoop, hqb, h1, h2, eligiblePairs, List.filterMap_cons, eligibleDigest, ih]

/-- Concrete 64-character lowercase-hex digest for scenario inputs. -/
def sha64a : String := String.mk (List.replicate 64 'a')

/-- Filesystem oracle for the C2 scenarios: nothing skipped, every path is a readable
file hashing to `sha64a`. -/
def w2fs : ScanFs := ⟨[], fun _ => true, fun _ => some sha64a, fun p => p, fun _ => "bin"⟩

/-- Two one-byte files, both unscanned. -/
def w2entries : List FileEntry := [⟨"/a", 1⟩, ⟨"/b", 1⟩]

/-- C2 counterexample: with `quota_gb = 0` the run is NOT unbounded — on two eligible
one-byte files exactly one record is produced, because `quota_bytes` is `0` (not
`None`) and the loop breaks as soon as one file has been hashed
(`src/client/scanner.py:94,102`; the repo's own
`test_client_scanner.py::test_round_robin_progresses_with_large_pool` asserts this
one-file behaviour). -/
theorem scan_files_quota_zero_counterexample :
    (scan_files w2fs "T" (some 0) (fun _ => none) (fun _ => "") w2entries).1.length = 1 ∧
    (eligiblePairs w2fs (select_files_for_run (fun _ => none) (fun _ => "") w2entries)).length
      = 2 := by
  constructor <;> decide

/-- C2 (amended): for `quota_gb = some q` (any `q`, including `0`) the run hashes the
quota-walk of the eligible ordered candidates — at least one file whenever any is
eligible, and it stops before starting a new file once accumulated bytes reach
`q·2^30`; for `quota_gb = none` every eligible candidate is hashed
(`src/client/scanner.py:85-136`). -/
theorem scan_files_quota_amended (fs : ScanFs) (nowTs : String)
    (parse : String → Option Nat) (stateFiles : String → String)
    (entries : List FileEntry) :
    (∀ q : Int,
      (scan_files fs nowTs (some q) parse stateFiles entries).1 =
        (quotaWalk (q * (1024 ^ 3 : Int))
          (eligiblePairs fs (select_files_for_run parse stateFiles entries)) 0 0).map
          (fun p => mkScanRecord fs nowTs p.1 p.2))
    ∧
    (∀ q : Int,
      eligiblePairs fs (select_files_for_run parse stateFiles entries) ≠ [] →
      (scan_files fs nowTs (some q) parse stateFiles entries).1 ≠ [])
    ∧
    ((scan_files fs nowTs none parse stateFiles entries).1 =
      (eligiblePairs fs (select_files_for_run parse stateFiles entries)).map
        (fun p => mkScanRecord fs nowTs p.1 p.2)) := by
  refine ⟨?_, ?_, ?_⟩
  · intro q
    unfold scan_files
    simp only [Option.map_some]
    exact scanLoop_some fs nowTs (q * (1024 ^ 3 : Int)) _ 0 0
  · intro q hne
    cases hp : eligiblePairs fs (select_files_for_run parse stateFiles entries) with
    | nil => exact absurd hp hne
    | cons p rest =>
      have h := scanLoop_some fs nowTs (q * (1024 ^ 3 : Int))
        (select_files_for_run parse stateFiles entries) 0 0
      unfold scan_files
      intro hcontra
      rw [show Option.map (fun g => g * (1024 ^ 3 : Int)) (some q)
          = some (q * (1024 ^ 3 : Int)) from rfl] at hcontra
      rw [h, hp] at hcontra
      simp [quotaWalk] at hcontra
  · unfold scan_files
    simp only [Option.map_none]
    exact scanLoop_none fs nowTs _ 0 0

theorem scan_files_quota_amended_witness :
    (scan_files w2fs "T" (some 5) (fun _ => none) (fun _ => "") w2entries).1 ≠ [] :=
  (scan_files_quota_amended w2fs "T" (fun _ => none) (fun _ => "") w2entries).2.1 5
    (by decide)

/-! ### State advance after an acknowledged batch (`src/client/cli.py:116-135`) -/

/-- Embedding of the per-batch state advance of `_cmd_run`: after a batch is
acknowledged, `state.files[r.file_path] = today` for each record of the batch. -/
def advanceState (stateFiles : String → String) (batchPaths : List String)
    (today : String) : String → String :=
  fun p => if batchPaths.contains p then today else stateFiles p

/-- C8 counterexample: with a single enumerated file whose batch was just acknowledged
and advanced (and no other file unscanned), re-running the scheduler reselects that
very path — `select_files_for_run` returns all scanned entries when no unscanned
entry remains (`src/client/scanner.py:79-82`). -/
theorem scheduler_reselect_counterexample :
    (⟨"/f", 5⟩ : FileEntry) ∈
      select_files_for_run (fun s => if s = "D" then some 1 else none)
        (advanceState (fun _ => "") ["/f"] "D") [⟨"/f", 5⟩] ∧
    ("/f" : String) ∈ (["/f"] : List String) := by
  constructor <;> decide

/-- C8 (amended): immediately after an acknowledged batch advances its paths to the
parseable date `today`, re-running the scheduler selects none of the advanced paths,
provided at least one enumerated entry is still unscanned; without that proviso the
all-scanned branch returns every entry, advanced ones included. -/
theorem scheduler_no_reselect_amended (parse : String → Option Nat)
    (stateFiles : String → String) (entries : List FileEntry)
    (batchPaths : List String) (today : String)
    (htoday : (parse today).isSome)
    (hun : ∃ e ∈ entries, parse (advanceState stateFiles batchPaths today e.path) = none) :
    ∀ e ∈ select_files_for_run parse (advanceState stateFiles batchPaths today) entries,
      ¬ e.path ∈ batchPaths := by
  have hsel := (select_files_for_run_spec parse
    (advanceState stateFiles batchPaths today) entries).1 hun
  rw [hsel]
  intro e he hc
  have hnone : (parse (advanceState stateFiles batchPaths today e.path)).isNone = true :=
    (List.mem_filter.mp he).2
  have hcontains : batchPaths.contains e.path = true := List.elem_eq_true_of_mem hc
  unfold advanceState at hnone
  rw [hcontains] at hnone
  simp only [if_true] at hnone
  rw [Option.isNone_iff_eq_none.mp hnone] at htoday
  exact Bool.noConfusion htoday

theorem scheduler_no_reselect_amended_witness :
    ¬ (⟨"/g", 6⟩ : FileEntry).path ∈ (["/f"] : List String) :=
  scheduler_no_reselect_amended (fun s => if s = "D" then some 1 else none)
    (fun _ => "") [⟨"/f", 5⟩, ⟨"/g", 6⟩] ["/f"] "D" (by decide)
    ⟨⟨"/g", 6⟩, by decide, by decide⟩ ⟨"/g", 6⟩ (by decide)

/-! ### Server ingest buffer (`src/server/ingest_buffer.py`) -/

/-- Column tuple of `INSERT_SQL` (`src/server/ingest_buffer.py:10-15`), in order:
machine_name, machine_id, mac, file_name, file_path, size_bytes, sha256, tag,
host_name, client_ip, scan_ts, urn. -/
structure DbRow where
  machine_name : String
  machine_id : String
  mac : String
  file_name : String
  file_path : String
  size_bytes : Nat
  sha256 : String
  tag : String
  host_name : String
  client_ip : String
  scan_ts : String
  urn : String
deriving DecidableEq, Repr

/-- Mutable state of `IngestBuffer`: the pending FIFO queue and the
`(machine_name, file_path) → sha256` latest-hash cache.  The intervals and the
asyncio plumbing of the worker are not part of the claims modelled here. -/
structure IngestBuffer where
  max_pending_rows : Nat
  pending_rows : List DbRow
  latest_sha : String × String → Option String

/-- Default pending-row ceiling of `IngestBuffer.__init__`. -/
def defaultMaxPendingRows : Nat := 50000

/-- The `enqueue` cache write: `self._latest_sha_by_machine_path[(machine_name, p)] = sha`
for each dict item, unconditionally overwriting. -/
def cacheInsert (machine : String) (upds : List (String × String))
    (cache : String × String → Option String) : String × String → Option String :=
  upds.foldl (fun c pr => fun k => if k = (machine, pr.1) then some pr.2 else c k) cache

/-- Result of `enqueue`: `full` models `BufferFullError` being raised (the carried
state is the caller's state, untouched); `ok` carries the new state and whether the
worker wakeup event was signalled. -/
inductive EnqueueResult
  | full (st : IngestBuffer)
  | ok (st : IngestBuffer) (signaled : Bool)

/-- Embedding of `IngestBuffer.enqueue` (`src/server/ingest_buffer.py:80-95`). -/
def enqueue (machine : String) (rows : List DbRow) (latest_sha_updates : List (String × String))
    (st : IngestBuffer) : EnqueueResult :=
  if rows.isEmpty then .ok st false
  else if st.max_pending_rows < st.pending_rows.length + rows.length then .full st
  else .ok { st with
              pending_rows := st.pending_rows ++ rows,
              latest_sha := cacheInsert machine latest_sha_updates st.latest_sha } true

/-- Embedding of `IngestBuffer.cached_latest_sha_by_path`
(`src/server/ingest_buffer.py:60-69`): the sub-dict of cache hits among the
requested paths. -/
def cached_latest_sha_by_path (machine : String) (file_paths : List String)
    (st : IngestBuffer) : String → Option String :=
  fun p => if file_paths.contains p then st.latest_sha (machine, p) else none

/-- Embedding of `IngestBuffer.prime_latest_sha_by_path`
(`src/server/ingest_buffer.py:71-78`): `setdefault` per item — an existing cache
entry is never overwritten. -/
def prime_latest_sha_by_path (machine : String) (upds : List (String × String))
    (st : IngestBuffer) : IngestBuffer :=
  { st with latest_sha := (upds.foldl
      (fun c pr => fun k =>
        if k = (machine, pr.1) then
          match c k with
          | some v => some v
          | none => some pr.2
        else c k)
      st.latest_sha) }

/-- Result of `flush`: `ok` carries the new state and the committed row count; `err`
models the storage error being re-raised after the popped rows were prepended back. -/
inductive FlushResult
  | ok (st : IngestBuffer) (n : Nat)
  | err (st : IngestBuffer)

/-- Embedding of `IngestBuffer.flush` (`src/server/ingest_buffer.py:97-122`).
`commitOk` is the storage oracle: whether `executemany + commit` of the batch
succeeds. -/
def flush (maxRows : Option Int) (commitOk : List DbRow → Bool)
    (st : IngestBuffer) : FlushResult :=
  let m0 : Int := maxRows.getD 1000000000
  let m : Nat := (max 1 m0).toNat
  if st.pending_rows.isEmpty then .ok st 0
  else
    let n := min st.pending_rows.length m
    let batch := st.pending_rows.take n
    let rest := st.pending_rows.drop n
    if commitOk batch then .ok { st with pending_rows := rest } batch.length
    else .err { st with pending_rows := batch ++ rest }

/-- Committed count of a flush result, when it succeeded. -/
def flushCount : FlushResult → Option Nat
  | .ok _ n => some n
  | .err _ => none

/-- C3: a non-empty enqueue whose admission would push the pending count above the
ceiling raises `BufferFullError` and leaves the whole buffer (queue and cache)
unchanged; otherwise it appends all rows at the tail, unconditionally overwrites the
given cache entries and signals the worker (`src/server/ingest_buffer.py:80-95`).
The ceiling defaults to 50,000. -/
theorem enqueue_spec (machine : String) (rows : List DbRow)
    (upds : List (String × String)) (st : IngestBuffer) (h : rows ≠ []) :
    (st.max_pending_rows < st.pending_rows.length + rows.length →
      enqueue machine rows upds st = .full st)
    ∧
    (st.pending_rows.length + rows.length ≤ st.max_pending_rows →
      enqueue machine rows upds st =
        .ok { st with
                pending_rows := st.pending_rows ++ rows,
                latest_sha := cacheInsert machine upds st.latest_sha } true)
    ∧ defaultMaxPendingRows = 50000 := by
  have hne : rows.isEmpty = false := by
    cases rows with
    | nil => exact absurd rfl h
    | cons a l => rfl
  refine ⟨?_, ?_, rfl⟩
  · intro hover
    unfold enqueue
    rw [hne]
    simp only [Bool.false_eq_true, if_false, if_pos hover]
  · intro hfit
    unfold enqueue
    rw [hne]
    simp only [Bool.false_eq_true, if_false, if_neg (Nat.not_lt.mpr hfit)]

/-- Buffer at ceiling 2 holding one row, used by the C3 witness. -/
def w3row : DbRow := ⟨"M", "", "", "a", "/a", 1, "s", "", "", "", "t", "u"⟩

/-- Buffer used by the C3 witness. -/
def w3buf : IngestBuffer := ⟨2, [w3row], fun _ => none⟩

theorem enqueue_spec_witness :
    enqueue "M" [w3row, w3row] [] w3buf = .full w3buf ∧
    enqueue "M" [w3row] [] w3buf =
      .ok { w3buf with
              pending_rows := w3buf.pending_rows ++ [w3row],
              latest_sha := cacheInsert "M" [] w3buf.latest_sha } true :=
  ⟨(enqueue_spec "M" [w3row, w3row] [] w3buf (by decide)).1 (by decide),
   (enqueue_spec "M" [w3row] [] w3buf (by decide)).2.1 (by decide)⟩

/-- C10: an empty-rows enqueue is a complete no-op — no error even at the ceiling, the
pending queue and the cache are untouched (supplied cache updates are dropped), and
the worker is not signalled (`src/server/ingest_buffer.py:87-88`). -/
theorem enqueue_empty_rows (machine : String) (upds : List (String × String))
    (st : IngestBuffer) : enqueue machine [] upds st = .ok st false := rfl

/-- C4 counterexample: `flush` does not pop "up to maxRows" rows for every `maxRows` —
`max_rows = max(1, int(max_rows))` clamps `maxRows = 0` to 1, so with one pending row
and `maxRows = 0` one row is committed although the claim allows zero
(`src/server/ingest_buffer.py:100`). -/
theorem flush_maxrows_zero_counterexample :
    flushCount (flush (some 0) (fun _ => true) ⟨50000, [w3row], fun _ => none⟩) = some 1 ∧
    ¬ (1 : Nat) ≤ 0 := by
  constructor
  · rfl
  · decide

/-- C4 (amended): `flush` pops up to `max(1, maxRows)` rows (`maxRows = none` stands
for an effectively unbounded 10^9) from the queue head and commits them in one batch;
on storage failure the popped rows are prepended back so the queue equals its
pre-flush content in the original order and the error is re-raised; on success it
returns the number of rows committed, which is 0 exactly when nothing was pending
(`src/server/ingest_buffer.py:97-122`). -/
theorem flush_spec (maxRows : Option Int) (commitOk : List DbRow → Bool)
    (st : IngestBuffer) :
    (st.pending_rows = [] → flush maxRows commitOk st = .ok st 0)
    ∧
    (st.pending_rows ≠ [] →
      0 < min st.pending_rows.length ((max 1 (maxRows.getD 1000000000)).toNat)
      ∧
      (commitOk (st.pending_rows.take
          (min st.pending_rows.length ((max 1 (maxRows.getD 1000000000)).toNat))) = true →
        flush maxRows commitOk st =
          .ok { st with pending_rows := (st.pending_rows.drop
                  (min st.pending_rows.length ((max 1 (maxRows.getD 1000000000)).toNat))) }
            (min st.pending_rows.length ((max 1 (maxRows.getD 1000000000)).toNat)))
      ∧
      (commitOk (st.pending_rows.take
          (min st.pending_rows.length ((max 1 (maxRows.getD 1000000000)).toNat))) = false →
        flush maxRows commitOk st = .err st)) := by
  have hm1 : 1 ≤ (max 1 (maxRows.getD 1000000000)).toNat := by
    have : (1 : Int) ≤ max 1 (maxRows.getD 1000000000) := le_max_left 1 _
    omega
  constructor
  · intro hnil
    unfold flush
    rw [hnil]
    rfl
  · intro hne
    have hlen : 0 < st.pending_rows.length := List.length_pos.mpr hne
    have hmin : 0 < min st.pending_rows.length ((max 1 (maxRows.getD 1000000000)).toNat) := by
      omega
    have hemp : st.pending_rows.isEmpty = false := by
      cases hp : st.pending_rows with
      | nil => exact absurd hp hne
      | cons a l => rfl
    refine ⟨hmin, ?_, ?_⟩
    · intro hcommit
      unfold flush
      rw [hemp]
      simp only [Bool.false_eq_true, if_false, hcommit, if_true]
      rw [List.length_take]
      congr 1
      omega
    · intro hcommit
      unfold flush
      rw [hemp]
      simp only [Bool.false_eq_true, if_false, hcommit]
      have : st.pending_rows.take
            (min st.pending_rows.length ((max 1 (maxRows.getD 1000000000)).toNat)) ++
          st.pending_rows.drop
            (min st.pending_rows.length ((max 1 (maxRows.getD 1000000000)).toNat)) =
          st.pending_rows := List.take_append_drop _ _
      rw [this]

theorem flush_spec_witness :
    flush (some 2) (fun _ => false) ⟨50000, [w3row, w3row, w3row], fun _ => none⟩ =
      .err ⟨50000, [w3row, w3row, w3row], fun _ => none⟩ :=
  ((flush_spec (some 2) (fun _ => false)
      ⟨50000, [w3row, w3row, w3row], fun _ => none⟩).2 (by decide)).2.2 rfl

/-! ### The `/ingest` endpoint (`src/server/main.py`) -/

/-- ASCII lowering, modelling `str.lower()` on header values. -/
def toLowerAscii (s : String) : String :=
  String.mk (s.toList.map (fun c =>
    if 65 ≤ c.toNat ∧ c.toNat ≤ 90 then Char.ofNat (c.toNat + 32) else c))

/-- Whitespace test for `str.strip()` (ASCII whitespace; bearer tokens are ASCII). -/
def isSpaceChar (c : Char) : Bool :=
  c == ' ' || c == '\t' || c == '\n' || c == '\r' || c == '\x0b' || c == '\x0c'

/-- Python `str.strip()`. -/
def pyStrip (s : String) : String :=
  String.mk (((s.toList.dropWhile isSpaceChar).reverse.dropWhile isSpaceChar).reverse)

/-- Embedding of `extract_bearer_token` (`src/server/auth.py:9-15`). -/
def extract_bearer_token (authorization : Option String) : Option String :=
  match authorization with
  | none => none
  | some s =>
    if s = "" then none
    else if ¬ ("bearer ".toList.isPrefixOf (toLowerAscii s).toList) then none
    else
      let token := pyStrip (String.mk (s.toList.drop 7))
      if token = "" then none else some token

/-- Modelled from the spec: `machine_name_for_token`, which `src/server/main.py`
imports but which is absent from `src/server/auth.py` (that module has
`machine_identity_for_token`).  Per spec §6 the token store maps machine_name to an
opaque unique token, so a valid token resolves to its machine name and anything else
to nothing.  `tokens` is the `auth_token` table as (token, machine_name) pairs. -/
def machine_name_for_token (tokens : List (String × String)) (token : String) :
    Option String :=
  (tokens.find? (fun pr => pr.1 == token)).map (fun pr => pr.2)

/-- Embedding of `_require_machine_name` (`src/server/main.py:54-63`): `none` models
the 401 `HTTPException` (missing or invalid bearer token).  The
`if not machine_name:` falsiness test at `main.py:61-62` also rejects a token whose
stored machine name is empty (or a NULL column, which the empty string stands for
here). -/
def require_machine_name (tokens : List (String × String))
    (authorization : Option String) : Option String :=
  match extract_bearer_token authorization with
  | none => none
  | some t =>
    match machine_name_for_token tokens t with
    | none => none
    | some m => if m = "" then none else some m

/-- Embedding of `_latest_sha_by_path` (`src/server/main.py:66-84`): per requested
path, the sha256 of the highest-id row for (machine_name, file_path).  The persisted
table is a list in id order (append-only, AUTOINCREMENT), so the highest id is the
last list hit. -/
def db_latest_sha_by_path (db : List DbRow) (machine : String)
    (file_paths : List String) : String → Option String :=
  fun p =>
    if file_paths.contains p then
      (db.reverse.find? (fun r => r.machine_name == machine && r.file_path == p)).map
        (fun r => r.sha256)
    else none

/-- Inbound record (`RecordIn` in `src/server/models.py`). -/
structure RecordIn where
  file_path : String
  file_name : String
  extension : String
  size_bytes : Nat
  sha256 : String
  scan_ts : String
  urn : String
deriving DecidableEq, Repr

/-- Inbound request body (`IngestRequest` in `src/server/models.py`): exactly
`mac`, `host_name`, `tag`, `records` — there is no `machine_id` field, although the
handler reads `payload.machine_id` at `src/server/main.py:132` (pydantic silently
drops the extra key every caller sends, then the attribute access raises
`AttributeError`; see `ingest` below). -/
structure IngestRequest where
  mac : String
  host_name : String
  tag : String
  records : List RecordIn
deriving Repr

/-- Combined server-side mutable state: the ingest buffer and the persisted table. -/
structure ServerState where
  buf : IngestBuffer
  db : List DbRow

/-- Change entry as emitted by the handler (`src/server/main.py:121-127`). -/
structure ChangedEntry where
  file_path : String
  previous_sha256 : String
  new_sha256 : String
deriving DecidableEq, Repr

/-- Duplicate entry as emitted by the handler (`src/server/main.py:190-196`). -/
structure DupEntry where
  sha256 : String
  distinct_file_names : Nat
  distinct_file_paths : Nat
deriving DecidableEq, Repr

/-- Values of the JSON response object. -/
inductive BodyVal
  | num (n : Nat)
  | changedList (l : List ChangedEntry)
  | dupList (l : List DupEntry)
deriving DecidableEq, Repr

/-- Endpoint outcome: a 200 body (as an ordered key/value object) or an
`HTTPException` status, in both cases with the server state left behind. -/
inductive IngestOutcome
  | ok (st : ServerState) (body : List (String × BodyVal))
  | httpError (status : Nat) (st : ServerState)

/-- Previous-hash resolution of the handler (`src/server/main.py:110-115`): the
buffer cache wins; storage (highest id, over the cache-missed paths only) otherwise —
`prev_by_path = {**db_prev_by_path, **cached_prev_by_path}`. -/
def resolvePrev (buf : IngestBuffer) (db : List DbRow) (machine : String)
    (paths : List String) : String → Option String :=
  fun p =>
    match cached_latest_sha_by_path machine paths buf p with
    | some v => some v
    | none =>
      db_latest_sha_by_path db machine
        (paths.filter (fun q => (cached_latest_sha_by_path machine paths buf q).isNone)) p

/-- String order as a sort relation, for `sorted(set(...))`. -/
def strLeP (a b : String) : Prop := strLe a b = true

instance : DecidableRel strLeP := fun a b => by
  unfold strLeP; infer_instance

instance : IsTotal String strLeP := by
  constructor
  intro a b
  unfold strLeP
  by_cases h1 : strLt a b = true
  · exact Or.inl (by simp [strLe, h1])
  · by_cases h2 : strLt b a = true
    · exact Or.inr (by simp [strLe, h2])
    · have := str_eq_of_not_lt (by simpa using h1) (by simpa using h2)
      exact Or.inl (by simp [strLe, this])

instance : IsTrans String strLeP := by
  constructor
  intro a b c h1 h2
  exact strLe_trans h1 h2

/-- Number of distinct strings in a list (Python `len(set(...))`). -/
def distinctCount (l : List String) : Nat := l.eraseDups.length

/-- Distinct file names ever associated with `sha`: the request's records plus the
non-empty names of persisted rows with that hash (`src/server/main.py:156-188`). -/
def dupNameCount (db : List DbRow) (records : List RecordIn) (sha : String) : Nat :=
  distinctCount
    ((records.filter (fun r => r.sha256 == sha)).map (fun r => r.file_name) ++
     (db.filter (fun r => r.sha256 == sha && r.file_name != "")).map (fun r => r.file_name))

/-- Distinct file paths ever associated with `sha`, analogously. -/
def dupPathCount (db : List DbRow) (records : List RecordIn) (sha : String) : Nat :=
  distinctCount
    ((records.filter (fun r => r.sha256 == sha)).map (fun r => r.file_path) ++
     (db.filter (fun r => r.sha256 == sha && r.file_path != "")).map (fun r => r.file_path))

/-- Duplicate report (`src/server/main.py:156-196`): for each distinct sha of the
request, in sorted order, report it when it has more than one distinct name or path. -/
def duplicatesOf (db : List DbRow) (records : List RecordIn) : List DupEntry :=
  (((records.map (fun r => r.sha256)).eraseDups).insertionSort strLeP).filterMap
    (fun sha =>
      let n := dupNameCount db records sha
      let p := dupPathCount db records sha
      if 1 < n ∨ 1 < p then some ⟨sha, n, p⟩ else none)

/-- Embedding of the `/ingest` handler (`src/server/main.py:97-198`).
`tokens` is the `auth_token` table, `clientIp` the resolved client address.

The row construction at `main.py:129-145` evaluates `payload.machine_id` once per
record, but `IngestRequest` in `src/server/models.py` defines no `machine_id` field,
so any request with at least one record raises `AttributeError` there — surfaced by
the framework as a 500 response — after the cache was primed from storage but before
anything is enqueued and before this request's cache updates are written.  Only a
zero-record request reaches `enqueue` (with no rows and no cache updates) and the 200
response; the enqueued-row shape and `clientIp` are therefore never consumed. -/
def ingest (tokens : List (String × String)) (authorization : Option String)
    (clientIp : String) (payload : IngestRequest) (st : ServerState) : IngestOutcome :=
  let _ := clientIp
  match require_machine_name tokens authorization with
  | none => .httpError 401 st
  | some machine =>
    let file_paths := payload.records.map (fun r => r.file_path)
    let cached := cached_latest_sha_by_path machine file_paths st.buf
    let missing := file_paths.filter (fun p => (cached p).isNone)
    let dbPrev := db_latest_sha_by_path st.db machine missing
    let primeList := missing.filterMap (fun p => (dbPrev p).map (fun v => (p, v)))
    let buf1 := prime_latest_sha_by_path machine primeList st.buf
    let prev := resolvePrev st.buf st.db machine file_paths
    let changed := payload.records.filterMap (fun r =>
      match prev r.file_path with
      | some pv => if pv ≠ "" ∧ pv ≠ r.sha256 then some (⟨r.file_path, pv, r.sha256⟩ :
          ChangedEntry) else none
      | none => none)
    match payload.records with
    | _ :: _ => .httpError 500 ⟨buf1, st.db⟩
    | [] =>
      let rows : List DbRow := []
      let latest_updates : List (String × String) := []
      match enqueue machine rows latest_updates buf1 with
      | .full buf2 => .httpError 503 ⟨buf2, st.db⟩
      | .ok buf2 _ =>
        .ok ⟨buf2, st.db⟩
          [("inserted", .num payload.records.length),
           ("changed", .changedList changed),
           ("duplicates", .dupList (duplicatesOf st.db payload.records))]

/-- State left behind by an endpoint outcome. -/
def outState : IngestOutcome → ServerState
  | .ok st _ => st
  | .httpError _ st => st

/-- HTTP status of an outcome (200 on success). -/
def statusOf : IngestOutcome → Nat
  | .ok _ _ => 200
  | .httpError s _ => s

/-- Lookup of a response-body key. -/
def bodyLookup (key : String) : IngestOutcome → Option BodyVal
  | .ok _ body => (body.find? (fun kv => kv.1 == key)).map (fun kv => kv.2)
  | .httpError _ _ => none

/-- Changed list of a successful outcome. -/
def bodyChanged (o : IngestOutcome) : Option (List ChangedEntry) :=
  match bodyLookup "changed" o with
  | some (.changedList l) => some l
  | _ => none

/-- Digest of 64 letter-a characters. -/
def shaAA : String := String.mk (List.replicate 64 'a')

/-- Digest of 64 letter-b characters. -/
def shaBB : String := String.mk (List.replicate 64 'b')

/-- Token table for the C5 scenario. -/
def c5tokens : List (String × String) := [("tok", "M1")]

/-- First record for `/a`: hash `shaAA`. -/
def c5rec1 : RecordIn :=
  ⟨"/a", "a", "bin", 1, shaAA, "2026-01-01T00:00:00+00:00", "M1:a:bin:1:2026-01-01"⟩

/-- Second record for `/a`: hash `shaBB`. -/
def c5rec2 : RecordIn :=
  ⟨"/a", "a", "bin", 1, shaBB, "2026-01-02T00:00:00+00:00", "M1:a:bin:1:2026-01-02"⟩

/-- First ingest call of the C5 scenario, against a fresh store. -/
def c5step1 : IngestOutcome :=
  ingest c5tokens (some "Bearer tok") "ip"
    ⟨"00:11:22:33:44:55", "h1", "t", [c5rec1]⟩
    ⟨⟨50000, [], fun _ => none⟩, []⟩

/-- Second ingest call of the C5 scenario, on the state the first one left (no flush
in between). -/
def c5step2 : IngestOutcome :=
  ingest c5tokens (some "Bearer tok") "ip"
    ⟨"00:11:22:33:44:55", "h1", "t", [c5rec2]⟩
    (outState c5step1)

/-- C5 (code bug): the claimed scenario — ingest `/a` with hash `shaAA`, then `/a`
with hash `shaBB`, and read one changed entry off the second response — is
unrealizable in the program.  Both calls die with 500 at the row construction
(`src/server/main.py:132` reads `payload.machine_id`, a field `IngestRequest` in
`src/server/models.py` does not define), before any response body, before `enqueue`,
and before the first call's cache write, so no changed entry is ever reported and the
pending queue and the cache entry for `(M1, /a)` stay empty.  The repo's own
`test_server.py::test_ingest_change_detection` asserts exactly the claimed behaviour
(200 and the one changed entry), so the claim reflects the intended code and the
missing model field is the slip. -/
theorem ingest_change_scenario_crashes :
    statusOf c5step1 = 500 ∧
    statusOf c5step2 = 500 ∧
    bodyChanged c5step1 = none ∧
    bodyChanged c5step2 = none ∧
    (outState c5step1).buf.pending_rows = [] ∧
    (outState c5step1).buf.latest_sha ("M1", "/a") = none := by
  refine ⟨by decide, by decide, by decide, by decide, by decide, by decide⟩

/-- Outcome of an authenticated single-record ingest against an empty buffer (which
would admit it), for the C7 counterexample. -/
def c7step : IngestOutcome :=
  ingest [("tk7", "M7")] (some "Bearer tk7") "ip"
    ⟨"", "h7", "t", [⟨"/x", "x", "bin", 1, shaAA,
      "2026-01-01T00:00:00+00:00", "M7:x:bin:1:2026-01-01"⟩]⟩
    ⟨⟨50000, [], fun _ => none⟩, []⟩

/-- C7 counterexample: an authenticated, well-formed one-record ingest that the buffer
would admit does not return `200 {received: 1}` — it fails with 500 (the handler
reads `payload.machine_id`, absent from `models.py`'s `IngestRequest`), and no
response body, hence no `received` key, is produced (`src/server/main.py:129-145`).
Independently, the success body the code would build carries the count under
`inserted`, never `received` (`src/server/main.py:198`; the repo's tests assert
`body["inserted"]`). -/
theorem ingest_response_key_counterexample :
    statusOf c7step = 500 ∧
    bodyLookup "received" c7step = none := by
  refine ⟨by decide, by decide⟩

/-- C7 (amended): a missing or invalid bearer token (including one mapping to an
empty machine name) yields 401 with the state untouched.  An authenticated request
with one or more records fails with 500 at `payload.machine_id`
(`src/server/main.py:132`) before anything is enqueued — the pending queue is
unchanged, so the claimed `200 {received: N}` and the buffer-full 503 are both
unreachable for such requests.  Only an authenticated zero-record request reaches the
success path, returning 200 with the count under the `inserted` key (i.e. 0). -/
theorem ingest_statuses (tokens : List (String × String)) (auth : Option String)
    (ip : String) (payload : IngestRequest) (st : ServerState) :
    (require_machine_name tokens auth = none →
      ingest tokens auth ip payload st = .httpError 401 st)
    ∧
    (∀ machine, require_machine_name tokens auth = some machine →
      payload.records ≠ [] →
      statusOf (ingest tokens auth ip payload st) = 500 ∧
      (outState (ingest tokens auth ip payload st)).buf.pending_rows =
        st.buf.pending_rows)
    ∧
    (∀ machine, require_machine_name tokens auth = some machine →
      payload.records = [] →
      statusOf (ingest tokens auth ip payload st) = 200 ∧
      bodyLookup "inserted" (ingest tokens auth ip payload st) = some (.num 0)) := by
  refine ⟨?_, ?_, ?_⟩
  · intro h
    unfold ingest
    rw [h]
  · intro machine h hne
    unfold ingest
    rw [h]
    cases hr : payload.records with
    | nil => exact absurd hr hne
    | cons a l => exact ⟨rfl, rfl⟩
  · intro machine h hrec
    unfold ingest
    rw [h, hrec]
    exact ⟨rfl, rfl⟩

/-- Concrete one-record call used by the C7 witness. -/
def c7wpayload : IngestRequest :=
  ⟨"", "h8", "t", [⟨"/y", "y", "bin", 2, shaBB,
    "2026-01-02T00:00:00+00:00", "M8:y:bin:1:2026-01-02"⟩]⟩

/-- Concrete zero-record call used by the C7 witness. -/
def c7wempty : IngestRequest := ⟨"", "h8", "t", []⟩

theorem ingest_statuses_witness :
    statusOf (ingest [("tk8", "M8")] (some "Bearer tk8") "ip" c7wpayload
      ⟨⟨50000, [], fun _ => none⟩, []⟩) = 500 ∧
    statusOf (ingest [("tk8", "M8")] (some "Bearer tk8") "ip" c7wempty
      ⟨⟨50000, [], fun _ => none⟩, []⟩) = 200 ∧
    ingest [("tk8", "M8")] none "ip" c7wpayload ⟨⟨50000, [], fun _ => none⟩, []⟩ =
      .httpError 401 ⟨⟨50000, [], fun _ => none⟩, []⟩ :=
  ⟨((ingest_statuses [("tk8", "M8")] (some "Bearer tk8") "ip" c7wpayload
      ⟨⟨50000, [], fun _ => none⟩, []⟩).2.1 "M8" (by decide) (by decide)).1,
   ((ingest_statuses [("tk8", "M8")] (some "Bearer tk8") "ip" c7wempty
      ⟨⟨50000, [], fun _ => none⟩, []⟩).2.2 "M8" (by decide) rfl).1,
   (ingest_statuses [("tk8", "M8")] none "ip" c7wpayload
      ⟨⟨50000, [], fun _ => none⟩, []⟩).1 (by decide)⟩

/-! ### Provenance graph builder (`src/server/graph.py`) -/

/-- Row shape consumed by `fetch_segments_for_sha256`: the query selects
`machine_name, urn, scan_ts` for the target hash, ordered by
(machine_name, scan_ts, id). -/
structure GraphRow where
  machine_name : String
  urn : String
  scan_ts : String
deriving DecidableEq, Repr

/-- `ShaSegment` of `src/server/graph.py:10-16`. -/
structure ShaSegment where
  machine_name : String
  base_urn : String
  start_date : String
  end_date : String
  segment_index : Nat
deriving DecidableEq, Repr

/-- Embedding of `_base_urn` (`src/server/graph.py:22-26`): drop the last
colon-separated component. -/
def base_urn (urn : String) : String :=
  let parts := splitColon urn
  if parts.length < 2 then urn else joinColon parts.dropLast

/-- ASCII digit test. -/
def isDigit (c : Char) : Bool := 48 ≤ c.toNat && c.toNat ≤ 57

/-- Numeric value of a digit list. -/
def natOfDigits (cs : List Char) : Nat :=
  cs.foldl (fun acc c => acc * 10 + (c.toNat - 48)) 0

/-- Gregorian leap-year rule. -/
def isLeapYear (y : Nat) : Bool := y % 4 == 0 && (y % 100 != 0 || y % 400 == 0)

/-- Days in a month. -/
def daysInMonth (y m : Nat) : Nat :=
  if m == 2 then (if isLeapYear y then 29 else 28)
  else if m == 4 || m == 6 || m == 9 || m == 11 then 30
  else 31

/-- Parse of a canonical `YYYY-MM-DD` date, modelling `date.fromisoformat` on the
format this system produces (`date.today().isoformat()` and `.date().isoformat()`
always emit this form). -/
def parseIsoDate (s : String) : Option (Nat × Nat × Nat) :=
  match s.toList with
  | [a, b, c, d, s1, e, f, s2, g, h] =>
    if isDigit a && isDigit b && isDigit c && isDigit d && s1 == '-' &&
        isDigit e && isDigit f && s2 == '-' && isDigit g && isDigit h then
      let y := natOfDigits [a, b, c, d]
      let m := natOfDigits [e, f]
      let dy := natOfDigits [g, h]
      if 1 ≤ m && m ≤ 12 && 1 ≤ dy && dy ≤ daysInMonth y m then some (y, m, dy)
      else none
    else none
  | _ => none

/-- Whether a string is a valid canonical ISO date. -/
def isIsoDate (s : String) : Bool := (parseIsoDate s).isSome

/-- Proleptic-Gregorian day number (days-from-civil), so that differences equal
Python `(curr - prev).days`. -/
def dateOrdinal (y m d : Nat) : Nat :=
  let y' := if m ≤ 2 then y - 1 else y
  let era := y' / 400
  let yoe := y' % 400
  let mp := (m + 9) % 12
  let doy := (153 * mp + 2) / 5 + d - 1
  let doe := yoe * 365 + yoe / 4 - yoe / 100 + doy
  era * 146097 + doe

/-- Day number of a date string (0 for non-dates; only applied to validated dates in
the pipeline). -/
def dateOrdinalOf (s : String) : Nat :=
  match parseIsoDate s with
  | some (y, m, d) => dateOrdinal y m d
  | none => 0

/-- Embedding of `_scan_date_from_urn_or_ts` (`src/server/graph.py:29-44`).
`tsDate` is the oracle for `datetime.fromisoformat(scan_ts).date().isoformat()`
(`none` models `ValueError`). -/
def scan_date_from_urn_or_ts (tsDate : String → Option String)
    (urn scan_ts : String) : String :=
  let parts := splitColon urn
  if 2 ≤ parts.length && isIsoDate (parts.getLastD "") then parts.getLastD ""
  else
    match (if scan_ts ≠ "" then tsDate scan_ts else none) with
    | some d => d
    | none => "1970-01-01"

/-- Inner loop of `_split_dates_by_gap`: `cur` is the group being grown, `prev` the
previous date. -/
def splitGapGo (gapDays : Nat) : String → List String → List String →
    List (List String)
  | _, cur, [] => [cur]
  | prev, cur, d :: rest =>
    if (dateOrdinalOf d : Int) - (dateOrdinalOf prev : Int) > (gapDays : Int) then
      cur :: splitGapGo gapDays d [d] rest
    else splitGapGo gapDays d (cur ++ [d]) rest

/-- Embedding of `_split_dates_by_gap` (`src/server/graph.py:47-59`). -/
def split_dates_by_gap (gapDays : Nat) : List String → List (List String)
  | [] => []
  | d :: rest => splitGapGo gapDays d [d] rest

/-- Final sort key of `fetch_segments_for_sha256`
(machine_name, start_date, base_urn, segment_index), Python tuple order. -/
def segSortLe (a b : ShaSegment) : Prop :=
  strLt a.machine_name b.machine_name = true ∨
  (a.machine_name = b.machine_name ∧
    (strLt a.start_date b.start_date = true ∨
      (a.start_date = b.start_date ∧
        (strLt a.base_urn b.base_urn = true ∨
          (a.base_urn = b.base_urn ∧ a.segment_index ≤ b.segment_index)))))

instance : DecidableRel segSortLe := fun a b => by
  unfold segSortLe; infer_instance

/-- Embedding of the row-processing core of `fetch_segments_for_sha256`
(`src/server/graph.py:62-110`): group the rows by `(machine_name, _base_urn(urn))`
in first-appearance order, collect each group's scan dates, dedupe and sort them,
split on gaps larger than `gapDays`, and emit one segment per date group, finally
sorting by (machine, start_date, base_urn, segment_index).  `rows` stands for the SQL
result for the target hash. -/
def buildSegments (tsDate : String → Option String) (gapDays : Nat)
    (rows : List GraphRow) : List ShaSegment :=
  let grouped := rows.foldl (fun acc r =>
    let base := base_urn r.urn
    let d := scan_date_from_urn_or_ts tsDate r.urn r.scan_ts
    let key := (r.machine_name, base)
    if acc.any (fun g => g.1 == key) then
      acc.map (fun g => if g.1 == key then (g.1, g.2 ++ [d]) else g)
    else acc ++ [(key, [d])]) ([] : List ((String × String) × List String))
  let segments := grouped.flatMap (fun g =>
    let unique_sorted := (g.2.eraseDups).insertionSort strLeP
    if unique_sorted.isEmpty then []
    else
      (split_dates_by_gap gapDays unique_sorted).enum.map (fun pr =>
        (⟨g.1.1, g.1.2, pr.2.headD "", pr.2.getLastD "", pr.1⟩ : ShaSegment)))
  segments.insertionSort segSortLe

/-- Row at (M1, /a/file.bin) on 2026-01-01: canonical client urn
`machine:file_name:extension:ceil(size/1GiB):scan_date` — the path is not part of the
urn. -/
def c6row1 : GraphRow := ⟨"M1", "M1:file.bin:bin:1:2026-01-01", "2026-01-01T00:00:00+00:00"⟩

/-- Row at (M1, /a/file.bin) on 2026-01-02. -/
def c6row2 : GraphRow := ⟨"M1", "M1:file.bin:bin:1:2026-01-02", "2026-01-02T00:00:00+00:00"⟩

/-- Row at (M1, /b/file.bin) on 2026-01-03: same file name, different directory —
identical base urn. -/
def c6row3 : GraphRow := ⟨"M1", "M1:file.bin:bin:1:2026-01-03", "2026-01-03T00:00:00+00:00"⟩

/-- C6: the builder does NOT group by (machine, file_path, file_name) — it groups by
(machine, base urn), and the urn (`machine:file_name:extension:sizeGiB:scan_date`)
carries no path.  On the claim's scenario rows — hash H at (M1, /a/file.bin) on
2026-01-01 and 2026-01-02 and at (M1, /b/file.bin) on 2026-01-03 — the code returns
ONE merged segment spanning 2026-01-01..2026-01-03 instead of the two per-path
segments the claim (and the repo's own `test_graph.py`) requires; segments do not
even carry a file path (`src/server/graph.py:22-26,82-110`). -/
theorem buildSegments_merges_distinct_paths :
    buildSegments (fun _ => none) 30 [c6row1, c6row2, c6row3] =
      [⟨"M1", "M1:file.bin:bin:1", "2026-01-01", "2026-01-03", 0⟩] := by
  decide

/-! ### The three renderers (`src/server/graph.py:113-190`)

Each renderer first builds `by_machine` (a dict in first-appearance order), walks the
machines in sorted order and, per machine, the segments sorted by
`(start_date, base_urn, segment_index)`.  Each embedding below factors that traversal
into its own `...Traversal` definition (hoisting the loop-invariant `segs_sorted`),
and assembles the output string from it — a semantics-preserving refactoring of the
Python loop. -/

/-- Machine-items order used by `sorted(by_machine.items())`: machine names are
unique dict keys, so Python's tuple comparison never reaches the values. -/
def machineItemLe (a b : String × List ShaSegment) : Prop := strLe a.1 b.1 = true

instance : DecidableRel machineItemLe := fun a b => by
  unfold machineItemLe; infer_instance

/-- Per-machine segment order `(start_date, base_urn, segment_index)` used by all
three renderers. -/
def segInnerLe (a b : ShaSegment) : Prop :=
  strLt a.start_date b.start_date = true ∨
  (a.start_date = b.start_date ∧
    (strLt a.base_urn b.base_urn = true ∨
      (a.base_urn = b.base_urn ∧ a.segment_index ≤ b.segment_index)))

instance : DecidableRel segInnerLe := fun a b => by
  unfold segInnerLe; infer_instance

/-- Traversal of `render_ascii_chain`: machines in sorted order, segments per machine
in `(start_date, base_urn, segment_index)` order. -/
def asciiTraversal (segs : List ShaSegment) : List (String × List ShaSegment) :=
  ((segs.foldl (fun acc seg =>
      if acc.any (fun g => g.1 == seg.machine_name) then
        acc.map (fun g => if g.1 == seg.machine_name then (g.1, g.2 ++ [seg]) else g)
      else acc ++ [(seg.machine_name, [seg])])
      ([] : List (String × List ShaSegment))).insertionSort machineItemLe).map
    (fun g => (g.1, g.2.insertionSort segInnerLe))

/-- Traversal of `render_dot` (same construction, from its own loop). -/
def dotTraversal (segs : List ShaSegment) : List (String × List ShaSegment) :=
  ((segs.foldl (fun acc seg =>
      if acc.any (fun g => g.1 == seg.machine_name) then
        acc.map (fun g => if g.1 == seg.machine_name then (g.1, g.2 ++ [seg]) else g)
      else acc ++ [(seg.machine_name, [seg])])
      ([] : List (String × List ShaSegment))).insertionSort machineItemLe).map
    (fun g => (g.1, g.2.insertionSort segInnerLe))

/-- Traversal of `render_mermaid_flowchart` (same construction, from its own loop). -/
def mermaidTraversal (segs : List ShaSegment) : List (String × List ShaSegment) :=
  ((segs.foldl (fun acc seg =>
      if acc.any (fun g => g.1 == seg.machine_name) then
        acc.map (fun g => if g.1 == seg.machine_name then (g.1, g.2 ++ [seg]) else g)
      else acc ++ [(seg.machine_name, [seg])])
      ([] : List (String × List ShaSegment))).insertionSort machineItemLe).map
    (fun g => (g.1, g.2.insertionSort segInnerLe))

/-- Display path of a segment: the base urn with a leading `machine:` stripped. -/
def segDisp (machine : String) (s : ShaSegment) : String :=
  let prefixChars := (machine ++ ":").toList
  if prefixChars.isPrefixOf s.base_urn.toList then
    String.mk (s.base_urn.toList.drop prefixChars.length)
  else s.base_urn

/-- Embedding of `render_ascii_chain` (`src/server/graph.py:113-134`). -/
def render_ascii_chain (segs : List ShaSegment) : String :=
  let lines := (asciiTraversal segs).map (fun g =>
    let parts := g.2.map (fun s =>
      let marker := if 0 < s.segment_index then "#" ++ toString (s.segment_index + 1)
        else ""
      "\x7b" ++ segDisp g.1 s ++ marker ++ " " ++ s.start_date ++ ".." ++ s.end_date ++
        "\x7d")
    let chain := if parts.isEmpty then "(no data)" else " -> ".intercalate parts
    g.1 ++ " " ++ chain)
  "\n".intercalate lines

/-- Character class kept verbatim by `_SAFE_NODE_RE`. -/
def isSafeChar (c : Char) : Bool :=
  isDigit c || (65 ≤ c.toNat && c.toNat ≤ 90) || (97 ≤ c.toNat && c.toNat ≤ 122) ||
    c == '_'

/-- Regex `re.sub(r"[^a-zA-Z0-9_]+", "_", raw)`: each maximal unsafe run becomes one
underscore.  The flag records whether the previous character was unsafe. -/
def collapseUnsafe : Bool → List Char → List Char
  | _, [] => []
  | prevUnsafe, c :: rest =>
    if isSafeChar c then c :: collapseUnsafe false rest
    else if prevUnsafe then collapseUnsafe true rest
    else '_' :: collapseUnsafe true rest

/-- Embedding of `_node_id` (`src/server/graph.py:137-142`). -/
def node_id (machine base : String) (idx : Nat) : String :=
  let segSuffix := if 0 < idx then "_seg" ++ toString idx else ""
  let raw := machine ++ "_" ++ base ++ segSuffix
  String.mk ((collapseUnsafe false raw.toList).take 120)

/-- Embedding of `render_mermaid_flowchart` (`src/server/graph.py:145-165`). -/
def render_mermaid_flowchart (segs : List ShaSegment) : String :=
  let lines := ["flowchart LR"] ++ (mermaidTraversal segs).flatMap (fun g =>
    let nodeLines := (g.2.foldl (fun (acc : List String × Option String) s =>
      let nid := node_id g.1 s.base_urn s.segment_index
      let label := segDisp g.1 s ++ "\\n" ++ s.start_date ++ ".." ++ s.end_date
      let withNode := acc.1 ++ ["    " ++ nid ++ "[\"" ++ label ++ "\"]"]
      let withEdge := match acc.2 with
        | some pid => withNode ++ ["    " ++ pid ++ " --> " ++ nid]
        | none => withNode
      (withEdge, some nid)) (([], none) : List String × Option String)).1
    ["  subgraph " ++ g.1] ++ nodeLines ++ ["  end"])
  "\n".intercalate lines

/-- Embedding of `render_dot` (`src/server/graph.py:168-190`). -/
def render_dot (segs : List ShaSegment) : String :=
  let lines := ["digraph fim \x7b", "  rankdir=LR;"] ++
    (dotTraversal segs).flatMap (fun g =>
      let nodeLines := (g.2.foldl (fun (acc : List String × Option String) s =>
        let nid := node_id g.1 s.base_urn s.segment_index
        let label := segDisp g.1 s ++ "\\n" ++ s.start_date ++ ".." ++ s.end_date
        let withNode := acc.1 ++ ["    \"" ++ nid ++ "\" [label=\"" ++ label ++ "\"];"]
        let withEdge := match acc.2 with
          | some pid => withNode ++ ["    \"" ++ pid ++ "\" -> \"" ++ nid ++ "\";"]
          | none => withNode
        (withEdge, some nid)) (([], none) : List String × Option String)).1
      ["  subgraph \"cluster_" ++ g.1 ++ "\" \x7b", "    label=\"" ++ g.1 ++ "\";"] ++
        nodeLines ++ ["  \x7d"]) ++
    ["\x7d"]
  "\n".intercalate lines

/-- C9: the ASCII chain, the Graphviz digraph and the Mermaid flowchart all traverse —
and hence reference — exactly the same segments in exactly the same order: machines
sorted by name, segments per machine sorted by (start_date, base_urn, segment_index).
Each rendering is by definition assembled from its traversal
(`render_ascii_chain` from `asciiTraversal`, `render_dot` from `dotTraversal`,
`render_mermaid_flowchart` from `mermaidTraversal`), so equal traversals mean the
same segment sequence under different envelopes
(`src/server/graph.py:113-134,145-165,168-190`). -/
theorem renderers_reference_same_segments (segs : List ShaSegment) :
    asciiTraversal segs = dotTraversal segs ∧
    mermaidTraversal segs = dotTraversal segs ∧
    (asciiTraversal segs).flatMap (fun g => g.2) =
      (dotTraversal segs).flatMap (fun g => g.2) ∧
    (mermaidTraversal segs).flatMap (fun g => g.2) =
      (dotTraversal segs).flatMap (fun g => g.2) :=
  ⟨rfl, rfl, rfl, rfl⟩

end Fim
